import Mathlib

/-!
Verification of the financial-data derivation pipeline of the
Stockdoc dashboard (a TypeScript/React repository).

The embedding mirrors the source files:
  * `server/firebase-service.ts` — `processFinancialData` with its inner
    helpers `processAnnualData`, `processQuarterlyData`, `processDividends`
    and the rolling payout-ratio update blocks;
  * the route handler containing `findClosestQuarter`, `quarterToDate`
    and the `valuationMetrics` computation;
  * `client/src/components/ChartDetailDialog.tsx` — `calculateCAGR`;
  * `client/src/components/DataToggle.tsx` — the projection calculator.

Modelling conventions:
  * JavaScript numbers are modelled as `ℚ` for the exact-arithmetic parts
    of the pipeline and as `ℝ` for the growth/projection math that uses
    `Math.pow` with fractional exponents (`Real.rpow`).
  * A JavaScript `Date` object is `JsDate := Option Ymd`: `some ⟨y, m, d⟩`
    is a valid date with `getFullYear() = y`, `getMonth() = m` (0-based)
    and `getDate() = d`; `none` is an Invalid Date (all getters `NaN`).
    Comparison of epoch milliseconds agrees with lexicographic comparison
    of `(y, m, d)`, which is how dates are compared here.
  * A string `endDate` is modelled together with the result of the ambient
    JS date parser on it (`EndDate.str (p : JsDate)`): the pipeline only
    ever consumes `new Date(theString)`, never the characters themselves.
  * Optional numeric record fields are `Option ℚ` (`none` = absent/null);
    JS truthiness of such a field is `getD 0 ≠ 0`.
  * Period labels (`"2020"`, `"Q1 2020"`, with `NaN` parts for invalid
    dates) are modelled structurally by `Label`; the string rendering in
    the source is injective on this representation.
-/

namespace Stockdoc

/-- A valid JS date: `getFullYear`, `getMonth` (0-based) and `getDate`. -/
structure Ymd where
  y : Int
  m : Int
  d : Int
deriving DecidableEq, Repr

/-- A JS `Date` object: `none` models an Invalid Date (`NaN` getters). -/
abbrev JsDate := Option Ymd

/-- Lexicographic `≤` on dates; agrees with comparison of epoch millis. -/
def lexLe (a b : Ymd) : Bool :=
  if a.y < b.y then true
  else if b.y < a.y then false
  else if a.m < b.m then true
  else if b.m < a.m then false
  else a.d ≤ b.d

/-- Lexicographic `<` on dates. -/
def ymdLt (a b : Ymd) : Bool :=
  if a.y < b.y then true
  else if b.y < a.y then false
  else if a.m < b.m then true
  else if b.m < a.m then false
  else a.d < b.d

/-- Comparator key order used by `[...].sort((a, b) => new Date(a.endDate)
.getTime() - new Date(b.endDate).getTime())`.  When either date is
Invalid the subtraction is `NaN`, which ECMAScript `SortCompare` treats
as `+0`, i.e. the two elements compare as equal; hence `true` (do not
swap) on both sides. -/
def keyLe (a b : JsDate) : Bool :=
  match a, b with
  | some x, some yv => lexLe x yv
  | _, _ => true

/-- Insert into a sorted list, before the first element not below `x`
(stable insertion). -/
def insertLe (le : α → α → Bool) (x : α) : List α → List α
  | [] => [x]
  | y :: ys => if le x y then x :: y :: ys else y :: insertLe le x ys

/-- Stable comparison sort modelling `Array.prototype.sort` (which the
ECMAScript standard requires to be stable). -/
def sortBy (le : α → α → Bool) : List α → List α
  | [] => []
  | x :: xs => insertLe le x (sortBy le xs)

/-- The heterogeneous `endDate` field of a raw fundamentals record,
together with what the ambient JS date machinery does with it. -/
inductive EndDate where
  /-- a string; `p` is the result of `new Date(theString)`. -/
  | str (p : JsDate)
  /-- an object that is already a `Date` (has `getFullYear`). -/
  | dateObj (dt : Ymd)
  /-- a plain object carrying some of `year`, `month`, `fiscalYear`,
  `fiscalQuarter` (numeric values; `none` = field absent). -/
  | fieldsObj (year month fiscalYear fiscalQuarter : Option Int)
  /-- `undefined`, or any non-string non-object value. -/
  | undef
  /-- the JS literal `null`. -/
  | nullv
deriving DecidableEq, Repr

/-- The `shortTermInvestments` field: may be absent/null, the literal
string sentinel `"None"`, or a number. -/
inductive StiVal where
  | missing
  | strNone
  | num (v : ℚ)
deriving DecidableEq, Repr

/-- A raw fundamentals record as received from the realtime database. -/
structure FundRecord where
  endDate : EndDate
  totalRevenue : Option ℚ := none
  netIncome : Option ℚ := none
  cashAndShortTermInvestments : Option ℚ := none
  shortTermInvestments : StiVal := .missing
  longTermDebt : Option ℚ := none
  commonStockSharesOutstanding : Option ℚ := none
  costofGoodsAndServicesSold : Option ℚ := none
  operatingCashflow : Option ℚ := none
  capitalExpenditures : Option ℚ := none
  dividendPayout : Option ℚ := none
deriving DecidableEq, Repr

/-- `Number(field || 0)`: a missing field, like the number `0`, is falsy,
so both yield `0`; any other number passes through. -/
def numOr0 (o : Option ℚ) : ℚ := o.getD 0

/-- JS truthiness of an optional numeric field: present and non-zero. -/
def truthyQ (o : Option ℚ) : Bool := decide (o.getD 0 ≠ 0)

/-- JS `a || b` on optional numbers: `a` when present and non-zero
(truthy), otherwise `b`. -/
def jsOr (a b : Option Int) : Option Int :=
  match a with
  | some v => if v ≠ 0 then some v else b
  | none => b

/-- `new Date(year, monthIndex, 1)` normalisation: a year between 0 and
99 means 1900 + year, and an out-of-range month index rolls the year
(floor division; `Int` `/`/`%` are Euclidean, which agrees with floor
division for the positive divisor 12). -/
def mkYmd (yr mIdx day : Int) : Ymd :=
  let y2 := if 0 ≤ yr ∧ yr ≤ 99 then 1900 + yr else yr
  ⟨y2 + mIdx / 12, mIdx % 12, day⟩

/-- The date built in the quarterly parser's plain-object branch:
`year = endDate.year || (endDate.fiscalYear ? fiscalYear : null)`,
`month = endDate.month || (endDate.fiscalQuarter ? fiscalQuarter*3-2 : 1)`,
then `new Date(year, month - 1, 1)` (a `null` year coerces to 0). -/
def fieldsDate (year month fiscalYear fiscalQuarter : Option Int) : Ymd :=
  let fy : Option Int :=
    match fiscalYear with
    | some v => if v ≠ 0 then some v else none
    | none => none
  let fqMonth : Int :=
    match fiscalQuarter with
    | some q => if q ≠ 0 then q * 3 - 2 else 1
    | none => 1
  let yv : Int := ((jsOr year fy).getD 0)
  let mv : Int := ((jsOr month (some fqMonth)).getD 1)
  mkYmd yv (mv - 1) 1

/-- `new Date(item.endDate)` as used by the sorting comparator and by the
annual processing path: a plain object or `undefined` gives an Invalid
Date, `null` gives the epoch (Jan 1 1970). -/
def annualJsDate : EndDate → JsDate
  | .str p => p
  | .dateObj dt => some dt
  | .fieldsObj _ _ _ _ => none
  | .undef => none
  | .nullv => some ⟨1970, 0, 1⟩

/-- The quarterly path's tolerant date extraction.  Outer `none` is the
`date = null` case (record later skipped); `some none` is a non-null but
Invalid Date (record kept, `NaN` label). -/
def quarterlyDate : EndDate → Option JsDate
  | .str p => some p
  | .dateObj dt => some (some dt)
  | .fieldsObj yr mo fy fq => some (some (fieldsDate yr mo fy fq))
  | .undef => none
  | .nullv => none

/-- Sort comparator on records: by `new Date(endDate)` epoch time. -/
def recLe (a b : FundRecord) : Bool :=
  keyLe (annualJsDate a.endDate) (annualJsDate b.endDate)

/-- A period label.  The source renders labels as strings (`"2020"`,
`"Q3 2021"`, with `"NaN"` parts for invalid dates); the rendering is
injective on this structured representation, so label equality and
duplicate detection coincide with the source's string comparisons. -/
inductive Label where
  | annual (y : Option Int)
  | quarter (q y : Option Int)
deriving DecidableEq, Repr

/-- `new Date(item.endDate).getFullYear().toString()` as a label. -/
def annualLabelOf (dt : JsDate) : Label := .annual (dt.map (·.y))

/-- `` `Q${Math.ceil((date.getMonth() + 1) / 3)} ${date.getFullYear()}` ``
as a label (`⌈(m + 1)/3⌉ = ⌊(m + 3)/3⌋` for the 0-based month; Euclidean
`/` is floor division for the positive divisor 3). -/
def quarterLabelOf (dt : JsDate) : Label :=
  match dt with
  | some x => .quarter (some ((x.m + 3) / 3)) (some x.y)
  | none => .quarter none none

/-- A point of a produced series (`FinancialDataPoint` in the source);
`divPayout`/`netInc` are the optional `_dividendPayout`/`_netIncome`
carry-along fields used by the deferred payout-ratio pass. -/
structure FinancialDataPoint where
  year : Label
  value : ℚ
  divPayout : Option ℚ := none
  netInc : Option ℚ := none
deriving DecidableEq, Repr

/-- The record of per-metric series produced by `processAnnualData` /
`processQuarterlyData`. -/
structure SeriesBundle where
  revenue : List FinancialDataPoint := []
  netIncome : List FinancialDataPoint := []
  cash : List FinancialDataPoint := []
  debt : List FinancialDataPoint := []
  shares : List FinancialDataPoint := []
  sbc : List FinancialDataPoint := []
  grossMargin : List FinancialDataPoint := []
  netMargin : List FinancialDataPoint := []
  fcf : List FinancialDataPoint := []
  capex : List FinancialDataPoint := []
  operatingCashFlow : List FinancialDataPoint := []
  payoutRatio : List FinancialDataPoint := []
deriving DecidableEq, Repr

/-- `forEach` with its running element index. -/
def mapIdxFrom (f : ℕ → α → β) : ℕ → List α → List β
  | _, [] => []
  | i, a :: as => f i a :: mapIdxFrom f (i + 1) as

/-- Cash: `cashAndShortTermInvestments` alone when `shortTermInvestments`
is `null`/`undefined`/the literal `"None"`, else the sum of both. -/
def cashValueOf (r : FundRecord) : ℚ :=
  match r.shortTermInvestments with
  | .missing => numOr0 r.cashAndShortTermInvestments
  | .strNone => numOr0 r.cashAndShortTermInvestments
  | .num v => numOr0 r.cashAndShortTermInvestments + (if v ≠ 0 then v else 0)

/-- `if (item.totalRevenue && item.costofGoodsAndServicesSold) { margin }
else 0` — gross margin of one record. -/
def grossMarginOf (r : FundRecord) : ℚ :=
  if truthyQ r.totalRevenue && truthyQ r.costofGoodsAndServicesSold then
    (r.totalRevenue.getD 0 - r.costofGoodsAndServicesSold.getD 0)
      / r.totalRevenue.getD 0 * 100
  else 0

/-- `if (item.totalRevenue && item.netIncome) { margin } else 0` — net
margin of one record. -/
def netMarginOf (r : FundRecord) : ℚ :=
  if truthyQ r.totalRevenue && truthyQ r.netIncome then
    r.netIncome.getD 0 / r.totalRevenue.getD 0 * 100
  else 0

/-- `processAnnualData`: sort by `new Date(endDate)` and push one point
per record into each series.  `splitAdjustedShares` is an unmodified
copy of `rawShares` (the split-adjustment pass is disabled in the
source), and `rawShares` maps the same sorted list, so
`splitAdjustedShares[index].value` is the record's own share count.
The annual path does not re-check the parsed date: every record is
pushed, an unparsable `endDate` yielding the label `"NaN"`. -/
def processAnnualData (dataArray : Option (List FundRecord))
    (_quarterlyData : Option (List FundRecord) := none) : SeriesBundle :=
  -- the second argument was only consumed by the disabled split-adjustment pass.
  match dataArray with
  | none => {}
  | some l =>
    let sortedData := sortBy recLe l
    let lab := fun r => annualLabelOf (annualJsDate r.endDate)
    { revenue := sortedData.map fun r => ⟨lab r, numOr0 r.totalRevenue, none, none⟩
      netIncome := sortedData.map fun r => ⟨lab r, numOr0 r.netIncome, none, none⟩
      cash := sortedData.map fun r => ⟨lab r, cashValueOf r, none, none⟩
      debt := sortedData.map fun r => ⟨lab r, numOr0 r.longTermDebt, none, none⟩
      shares := sortedData.map fun r =>
        ⟨lab r, numOr0 r.commonStockSharesOutstanding, none, none⟩
      sbc := mapIdxFrom (fun index r =>
        ⟨lab r, numOr0 r.commonStockSharesOutstanding
            * (3 / 100 + (index : ℚ) * (5 / 1000)), none, none⟩) 0 sortedData
      grossMargin := sortedData.map fun r => ⟨lab r, grossMarginOf r, none, none⟩
      netMargin := sortedData.map fun r => ⟨lab r, netMarginOf r, none, none⟩
      fcf := sortedData.map fun r =>
        ⟨lab r, numOr0 r.operatingCashflow - numOr0 r.capitalExpenditures, none, none⟩
      capex := sortedData.map fun r => ⟨lab r, |numOr0 r.capitalExpenditures|, none, none⟩
      operatingCashFlow := sortedData.map fun r =>
        ⟨lab r, numOr0 r.operatingCashflow, none, none⟩
      payoutRatio := sortedData.map fun r =>
        ⟨lab r, 0, some (numOr0 r.dividendPayout), some (numOr0 r.netIncome)⟩ }

/-- The quarterly `forEach`: records whose tolerant parse produced
`date = null` are skipped; all others are kept, paired with their index
in the sorted array and their (possibly Invalid) date. -/
def keepParsed : ℕ → List FundRecord → List (ℕ × FundRecord × JsDate)
  | _, [] => []
  | i, r :: rs =>
    match quarterlyDate r.endDate with
    | some dt => (i, r, dt) :: keepParsed (i + 1) rs
    | none => keepParsed (i + 1) rs

/-- `processQuarterlyData`: sort by `new Date(endDate)`, tolerantly parse
each record's date, skip only records whose parse returned `null`, and
push one point per kept record with a `"Q{n} {year}"` label. -/
def processQuarterlyData (dataArray : Option (List FundRecord)) : SeriesBundle :=
  match dataArray with
  | none => {}
  | some l =>
    let kept := keepParsed 0 (sortBy recLe l)
    { revenue := kept.map fun p => ⟨quarterLabelOf p.2.2, numOr0 p.2.1.totalRevenue, none, none⟩
      netIncome := kept.map fun p => ⟨quarterLabelOf p.2.2, numOr0 p.2.1.netIncome, none, none⟩
      cash := kept.map fun p => ⟨quarterLabelOf p.2.2, cashValueOf p.2.1, none, none⟩
      debt := kept.map fun p => ⟨quarterLabelOf p.2.2, numOr0 p.2.1.longTermDebt, none, none⟩
      shares := kept.map fun p =>
        ⟨quarterLabelOf p.2.2, numOr0 p.2.1.commonStockSharesOutstanding, none, none⟩
      sbc := kept.map fun p =>
        ⟨quarterLabelOf p.2.2, numOr0 p.2.1.commonStockSharesOutstanding
            * (3 / 100 + (p.1 : ℚ) * (1 / 1000)), none, none⟩
      grossMargin := kept.map fun p => ⟨quarterLabelOf p.2.2, grossMarginOf p.2.1, none, none⟩
      netMargin := kept.map fun p => ⟨quarterLabelOf p.2.2, netMarginOf p.2.1, none, none⟩
      fcf := kept.map fun p =>
        ⟨quarterLabelOf p.2.2,
          numOr0 p.2.1.operatingCashflow - numOr0 p.2.1.capitalExpenditures, none, none⟩
      capex := kept.map fun p =>
        ⟨quarterLabelOf p.2.2, |numOr0 p.2.1.capitalExpenditures|, none, none⟩
      operatingCashFlow := kept.map fun p =>
        ⟨quarterLabelOf p.2.2, numOr0 p.2.1.operatingCashflow, none, none⟩
      payoutRatio := kept.map fun p =>
        ⟨quarterLabelOf p.2.2, 0,
          some (numOr0 p.2.1.dividendPayout), some (numOr0 p.2.1.netIncome)⟩ }

/-- The `Date` field of a per-event dividend record, with what the JS
date parser does to it. -/
inductive DivDate where
  /-- the literal sentinel string `"empty"` (parses to an Invalid Date). -/
  | emptyLit
  /-- any other (non-empty, hence truthy) string; `p` is its parse. -/
  | dstr (p : JsDate)
  /-- absent/null (falsy). -/
  | missing
deriving DecidableEq, Repr

/-- A raw per-event dividend record (`{Date, Dividends}`). -/
structure DivRecord where
  date : DivDate
  dividends : Option ℚ := none
deriving DecidableEq, Repr

/-- `new Date(item.Date)` for a dividend record. -/
def divJsDate : DivDate → JsDate
  | .emptyLit => none
  | .dstr p => p
  | .missing => none

/-- JS truthiness of the `Date` field (any non-empty string is truthy,
including `"empty"`). -/
def truthyDivDate : DivDate → Bool
  | .emptyLit => true
  | .dstr _ => true
  | .missing => false

/-- `processDividends`: non-arrays give `[]`; the one-record `"empty"`
sentinel gives `[]`; otherwise sort by `Date` and keep records with a
truthy `Date` and a truthy `Dividends` value, labelled by quarter. -/
def processDividends (dataArray : Option (List DivRecord)) : List FinancialDataPoint :=
  match dataArray with
  | none => []
  | some arr =>
    if (arr.length == 1) && ((arr.head?.map fun h => decide (h.date = DivDate.emptyLit)).getD false) then []
    else
      let sortedData := sortBy (fun a b => keyLe (divJsDate a.date) (divJsDate b.date)) arr
      sortedData.filterMap fun it =>
        if truthyDivDate it.date && truthyQ it.dividends then
          some ⟨quarterLabelOf (divJsDate it.date), it.dividends.getD 0, none, none⟩
        else none

/-- The annual payout-ratio pass: `dividendPayout / netIncome * 100` when
the carried `_netIncome` is truthy and positive, else 0. -/
def annualPayoutUpdate (pts : List FinancialDataPoint) : List FinancialDataPoint :=
  pts.map fun it =>
    { it with value :=
        if 0 < it.netInc.getD 0 then it.divPayout.getD 0 / it.netInc.getD 0 * 100
        else 0 }

/-- One term of the rolling window: `arr[index - offset]._field || 0`
(the index is in range at every call site, `3 ≤ index ≤ length - 1`). -/
def windowVal (arr : List FinancialDataPoint) (i : ℕ) (f : FinancialDataPoint → Option ℚ) : ℚ :=
  match arr.get? i with
  | some p => (f p).getD 0
  | none => 0

/-- The quarterly rolling payout-ratio pass: with at least 4 quarters of
data, each index ≥ 3 gets `Σ dividendPayout / Σ netIncome * 100` over
the current and previous 3 quarters (0 if the income sum is ≤ 0); the
first three indices keep their placeholder value 0. -/
def quarterlyPayoutUpdate (arr : List FinancialDataPoint) : List FinancialDataPoint :=
  if 4 ≤ arr.length then
    mapIdxFrom (fun index item =>
      if 3 ≤ index then
        let tdp := windowVal arr index (·.divPayout) + windowVal arr (index - 1) (·.divPayout)
          + windowVal arr (index - 2) (·.divPayout) + windowVal arr (index - 3) (·.divPayout)
        let tni := windowVal arr index (·.netInc) + windowVal arr (index - 1) (·.netInc)
          + windowVal arr (index - 2) (·.netInc) + windowVal arr (index - 3) (·.netInc)
        { item with value := if 0 < tni then tdp / tni * 100 else 0 }
      else item) 0 arr
  else arr

/-- One metric's pair of series. -/
structure MetricPair where
  annual : List FinancialDataPoint := []
  quarterly : List FinancialDataPoint := []
deriving DecidableEq, Repr

/-- The assembled `FinancialData` object. -/
structure FinancialData where
  revenue : MetricPair
  netIncome : MetricPair
  cash : MetricPair
  debt : MetricPair
  sharesOutstanding : MetricPair
  stockBasedCompensation : MetricPair
  grossMargin : MetricPair
  netMargin : MetricPair
  freeCashFlow : MetricPair
  capex : MetricPair
  operatingCashFlow : MetricPair
  dividends : List FinancialDataPoint
  payoutRatio : MetricPair
deriving DecidableEq, Repr

/-- `processFinancialData`: run the three processors, apply the two
payout-ratio passes, and assemble the result. -/
def processFinancialData (yearData quarterData : Option (List FundRecord))
    (dividendsData : Option (List DivRecord)) : FinancialData :=
  let annualData := processAnnualData yearData quarterData
  let quarterlyData := processQuarterlyData quarterData
  let dividends := processDividends dividendsData
  { revenue := ⟨annualData.revenue, quarterlyData.revenue⟩
    netIncome := ⟨annualData.netIncome, quarterlyData.netIncome⟩
    cash := ⟨annualData.cash, quarterlyData.cash⟩
    debt := ⟨annualData.debt, quarterlyData.debt⟩
    sharesOutstanding := ⟨annualData.shares, quarterlyData.shares⟩
    stockBasedCompensation := ⟨annualData.sbc, quarterlyData.sbc⟩
    grossMargin := ⟨annualData.grossMargin, quarterlyData.grossMargin⟩
    netMargin := ⟨annualData.netMargin, quarterlyData.netMargin⟩
    freeCashFlow := ⟨annualData.fcf, quarterlyData.fcf⟩
    capex := ⟨annualData.capex, quarterlyData.capex⟩
    operatingCashFlow := ⟨annualData.operatingCashFlow, quarterlyData.operatingCashFlow⟩
    dividends := dividends
    payoutRatio := ⟨annualPayoutUpdate annualData.payoutRatio,
      quarterlyPayoutUpdate quarterlyData.payoutRatio⟩ }

/-! ## The valuation aligner (route handler in the server) -/

/-- `quarterToDate`: parse `"Q{n} {year}"` and return the 15th of the
last month of that quarter, `new Date(year, (n - 1) * 3 + 2, 15)`.  An
annual label `"2020"` has no second word (`parseInt(undefined) = NaN`)
and a `"QNaN …"` label has a `NaN` quarter number; either way the
constructed date is Invalid. -/
def quarterToDate : Label → JsDate
  | .quarter (some q) (some yv) => some (mkYmd yv ((q - 1) * 3 + 2) 15)
  | _ => none

/-- `priceDate < oldestQuarterDate` (false when the quarter date is
Invalid: comparisons against `NaN` are false). -/
def ltValidDate (a : Ymd) (b : JsDate) : Bool :=
  match b with
  | some b2 => ymdLt a b2
  | none => false

/-- `quarterDate <= priceDate` (false when the quarter date is Invalid). -/
def leDateValid (a : JsDate) (b : Ymd) : Bool :=
  match a with
  | some a2 => lexLe a2 b
  | none => false

/-- `quarterDate > latestQuarterDate` (false when either is Invalid). -/
def gtDate (a b : JsDate) : Bool :=
  match a, b with
  | some a2, some b2 => ymdLt b2 a2
  | _, _ => false

/-- Position of the first match (`quarterData.find(...)` returns the
element, whose `index` field is its position in the array). -/
def findIdxFrom (p : α → Bool) : ℕ → List α → Option ℕ
  | _, [] => none
  | i, x :: xs => if p x then some i else findIdxFrom p (i + 1) xs

/-- The scan for the latest quarter at or before the price date, with the
running element index (`q.index` is the element's position). -/
def fcqLoop (priceDate : Ymd) : ℕ → Int × JsDate → List Label → Int × JsDate
  | _, acc, [] => acc
  | i, acc, q :: qs =>
    let quarterDate := quarterToDate q
    let acc2 :=
      if leDateValid quarterDate priceDate && gtDate quarterDate acc.2 then
        ((i : Int), quarterDate)
      else acc
    fcqLoop priceDate (i + 1) acc2 qs

/-- `findClosestQuarter`: -1 with no quarterly data; the position of an
exact `"Q{q} {year}"` label match if one exists; 0 for a price date
before the earliest quarter's date; otherwise the position of the
latest quarter dated at or before the price date (0 if none found). -/
def findClosestQuarter (quarterData : List Label) (priceDate : Ymd) : Int :=
  match quarterData with
  | [] => -1
  | oldestQuarter :: _ =>
    -- `Math.floor(priceMonth / 3) + 1` (Euclidean `/` = floor for divisor 3)
    let priceQuarter := priceDate.m / 3 + 1
    let priceDateQuarterString := Label.quarter (some priceQuarter) (some priceDate.y)
    match findIdxFrom (fun q => decide (q = priceDateQuarterString)) 0 quarterData with
    | some i => (i : Int)
    | none =>
      if ltValidDate priceDate (quarterToDate oldestQuarter) then 0
      else
        let r := fcqLoop priceDate 0 (-1, some ⟨1970, 0, 1⟩) quarterData
        if r.1 = -1 then 0 else r.1

/-- One aligned valuation point (`null` ratios are `none`). -/
structure ValuationPoint where
  price : ℚ
  pe : Option ℚ
  ps : Option ℚ
  pfcf : Option ℚ
  pocf : Option ℚ
deriving DecidableEq, Repr

/-- `data[dataIdx].value` for `dataIdx = idx - j` guarded by
`dataIdx >= 0` (the index is below the series length at every call
site: the caller filtered out `idx >= revenueData.length`). -/
def trailingVal (data : List FinancialDataPoint) (dataIdx : Int) : ℚ :=
  if 0 ≤ dataIdx then
    match data.get? dataIdx.toNat with
    | some p => p.value
    | none => 0
  else 0

/-- The trailing 4-quarter sum `Σ_{j=0..3} data[idx - j].value`. -/
def trailingSum (data : List FinancialDataPoint) (idx : Int) : ℚ :=
  trailingVal data idx + trailingVal data (idx - 1) + trailingVal data (idx - 2)
    + trailingVal data (idx - 3)

/-- Operating cash flow is added only `if (operatingCashFlowData[dataIdx])`
— only when that entry exists. -/
def trailingValOCF (data : List FinancialDataPoint) (dataIdx : Int) : ℚ :=
  if 0 ≤ dataIdx then
    match data.get? dataIdx.toNat with
    | some p => p.value
    | none => 0
  else 0

/-- The trailing 4-quarter operating-cash-flow sum. -/
def trailingSumOCF (data : List FinancialDataPoint) (idx : Int) : ℚ :=
  trailingValOCF data idx + trailingValOCF data (idx - 1) + trailingValOCF data (idx - 2)
    + trailingValOCF data (idx - 3)

/-- `quartersIncluded`: how many of the offsets `j = 0..3` had
`idx - j >= 0`. -/
def quartersIncludedAt (idx : Int) : ℕ :=
  (if 0 ≤ idx then 1 else 0) + (if 0 ≤ idx - 1 then 1 else 0)
    + (if 0 ≤ idx - 2 then 1 else 0) + (if 0 ≤ idx - 3 then 1 else 0)

/-- `financialData.sharesOutstanding.quarterly[idx].value` (in range at
the call site: the caller filtered out indices beyond the series). -/
def sharesAt (sharesQuarterly : List FinancialDataPoint) (idx : Int) : ℚ :=
  match sharesQuarterly.get? idx.toNat with
  | some p => p.value
  | none => 0

/-- The per-point body of the `valuationMetrics` map: trailing 4-quarter
sums, then ratios only when `quartersIncluded === 4`, each ratio `null`
unless its own trailing sum is strictly positive. -/
def valuationMetricAt (revenueData earningsData fcfData operatingCashFlowData
    sharesQuarterly : List FinancialDataPoint) (idx : Int) (price : ℚ) : ValuationPoint :=
  let trailingRevenue := trailingSum revenueData idx
  let trailingEarnings := trailingSum earningsData idx
  let trailingFCF := trailingSum fcfData idx
  let trailingOperatingCF := trailingSumOCF operatingCashFlowData idx
  let quartersIncluded := quartersIncludedAt idx
  if quartersIncluded = 4 then
    let sharesOutstanding := sharesAt sharesQuarterly idx
    { price := price
      pe := if 0 < trailingEarnings then some (price / (trailingEarnings / sharesOutstanding)) else none
      ps := if 0 < trailingRevenue then some (price / (trailingRevenue / sharesOutstanding)) else none
      pfcf := if 0 < trailingFCF then some (price / (trailingFCF / sharesOutstanding)) else none
      pocf := if 0 < trailingOperatingCF then some (price / (trailingOperatingCF / sharesOutstanding)) else none }
  else
    { price := price, pe := none, ps := none, pfcf := none, pocf := none }

/-! ## Growth analysis (`calculateCAGR` in `ChartDetailDialog.tsx`)

Only the `.value` component of each point is read by the computation, so
the series is a `List ℝ` here.  `Math.pow` with a fractional exponent is
modelled by `Real.rpow` (the `^` below with a real exponent). -/

/-- `data[idx].value` under the loop guard `if (idx >= 0)` (for the start
window the source also guards `idx < data.length`; every in-bounds read
in either loop is identical to this). -/
def valAt (data : List ℝ) (i : Int) : ℝ :=
  if 0 ≤ i then
    match data.get? i.toNat with
    | some v => v
    | none => 0
  else 0

/-- `calculateCAGR(data, years, isQuarterly)`: returns a fraction.
Quarterly series use rolling 4-quarter (TTM) start/end windows; both
paths special-case sign transitions of the compared values. -/
noncomputable def calculateCAGR (data : List ℝ) (years : ℕ) (isQuarterly : Bool) : ℝ :=
  if data.length < years + 1 then 0
  else if isQuarterly then
    let quartersNeeded := if years = 1 then 4 else years * 4
    if data.length < quartersNeeded + 4 then 0
    else
      let L : Int := data.length
      let endTTM := valAt data (L - 1) + valAt data (L - 2)
        + valAt data (L - 3) + valAt data (L - 4)
      let startQtrIdx : Int := if years = 1 then L - 8 else L - 4 - quartersNeeded
      let startTTM := valAt data startQtrIdx + valAt data (startQtrIdx + 1)
        + valAt data (startQtrIdx + 2) + valAt data (startQtrIdx + 3)
      if startTTM < 0 ∧ 0 < endTTM then
        (endTTM - startTTM) / |startTTM| / (years : ℝ)
      else if startTTM = 0 then 0
      else if startTTM < 0 ∧ endTTM < 0 then
        if |endTTM| < |startTTM| then
          (1 + (|startTTM| - |endTTM|) / |startTTM|) ^ ((1 : ℝ) / (years : ℝ)) - 1
        else
          -((1 + (|endTTM| - |startTTM|) / |startTTM|) ^ ((1 : ℝ) / (years : ℝ)) - 1)
      else (endTTM / startTTM) ^ ((1 : ℝ) / (years : ℝ)) - 1
  else
    let endValue := valAt data ((data.length : Int) - 1)
    let startValue := valAt data ((data.length : Int) - 1 - years)
    if startValue < 0 ∧ 0 < endValue then
      (endValue - startValue) / |startValue| / (years : ℝ)
    else if startValue < 0 ∧ endValue < 0 then
      if |endValue| < |startValue| then
        (1 + (|startValue| - |endValue|) / |startValue|) ^ ((1 : ℝ) / (years : ℝ)) - 1
      else
        -((1 + (|endValue| - |startValue|) / |startValue|) ^ ((1 : ℝ) / (years : ℝ)) - 1)
    else if startValue = 0 then 0
    else (endValue / startValue) ^ ((1 : ℝ) / (years : ℝ)) - 1

/-- The sign-transition policy exactly as the specification states it,
as a function of the compared start/end values. -/
noncomputable def cagrSignPolicy (s e : ℝ) (years : ℕ) : ℝ :=
  if s < 0 ∧ 0 < e then (e - s) / |s| / (years : ℝ)
  else if s < 0 ∧ e < 0 then
    if |e| < |s| then (1 + (|s| - |e|) / |s|) ^ ((1 : ℝ) / (years : ℝ)) - 1
    else -((1 + (|e| - |s|) / |s|) ^ ((1 : ℝ) / (years : ℝ)) - 1)
  else if s = 0 then 0
  else (e / s) ^ ((1 : ℝ) / (years : ℝ)) - 1

/-- The annual end value `data[data.length - 1].value`. -/
def annualEndValue (data : List ℝ) : ℝ := valAt data ((data.length : Int) - 1)

/-- The annual start value `data[data.length - 1 - years].value`. -/
def annualStartValue (data : List ℝ) (years : ℕ) : ℝ :=
  valAt data ((data.length : Int) - 1 - years)

/-- The TTM end window: sum of the latest 4 quarters. -/
def endTTMOf (data : List ℝ) : ℝ :=
  valAt data ((data.length : Int) - 1) + valAt data ((data.length : Int) - 2)
    + valAt data ((data.length : Int) - 3) + valAt data ((data.length : Int) - 4)

/-- The TTM start window: sum of the 4 quarters beginning
`years * 4 + 4` quarters back from the end. -/
def startTTMOf (data : List ℝ) (years : ℕ) : ℝ :=
  let s : Int := (data.length : Int) - (years * 4 + 4)
  valAt data s + valAt data (s + 1) + valAt data (s + 2) + valAt data (s + 3)

/-! ## The projection calculator (`DataToggle.tsx`) -/

/-- One point of the 6-point projection path. -/
structure ProjPoint where
  year : Int
  price : ℝ
  metric : ℝ

/-- The projection body: compound the per-share value for 5 years, price
the endpoint with the exit multiple, derive the CAGR and the entry price
for the desired return, and emit the current point plus 5 future points
whose prices follow the derived CAGR while the per-share figures follow
direct compounding of the growth rate. -/
noncomputable def projectionCompute (perShareValue currentPrice growthRate multiple
    desiredReturn : ℝ) (currentYear : Int) : List ProjPoint × ℝ × ℝ :=
  let projectionYears : ℕ := 5
  let projectedFinalValue :=
    (List.range projectionYears).foldl (fun v _ => v * (1 + growthRate / 100)) perShareValue
  let finalPrice := projectedFinalValue * multiple
  let cagr := ((finalPrice / currentPrice) ^ ((1 : ℝ) / (projectionYears : ℝ)) - 1) * 100
  let entryPriceNeeded := finalPrice / (1 + desiredReturn / 100) ^ projectionYears
  let futurePoints := (List.range projectionYears).map fun k =>
    ({ year := currentYear + ((k : Int) + 1)
       price := currentPrice * (1 + cagr / 100) ^ (k + 1)
       metric := perShareValue * (1 + growthRate / 100) ^ (k + 1) } : ProjPoint)
  (({ year := currentYear, price := currentPrice, metric := perShareValue } : ProjPoint)
      :: futurePoints,
    cagr, entryPriceNeeded)

/-- The effect wrapper: it returns early (produces nothing) unless the
per-share base is present and truthy and `currentPrice > 0`. -/
noncomputable def projectionRun (ttmPerShare : Option ℝ) (currentPrice growthRate multiple
    desiredReturn : ℝ) (currentYear : Int) : Option (List ProjPoint × ℝ × ℝ) :=
  if ttmPerShare = none ∨ ttmPerShare.getD 0 = 0 ∨ currentPrice ≤ 0 then none
  else some (projectionCompute (ttmPerShare.getD 0) currentPrice growthRate multiple
    desiredReturn currentYear)

/-! ## Specification-side definitions and concrete inputs -/

/-- Strict order on annual labels: defined (and only holds) between two
valid year labels.  This is the period order of the specification's
"strictly increasing by period" for annual series. -/
def labelLtB : Label → Label → Bool
  | .annual (some a), .annual (some b) => decide (a < b)
  | _, _ => false

/-- Gross margin as the claim states it: the formula whenever revenue
and cogs are both PRESENT and revenue is truthy, else 0. -/
def claimGrossMargin (r : FundRecord) : ℚ :=
  if truthyQ r.totalRevenue = true ∧ r.costofGoodsAndServicesSold.isSome = true then
    (r.totalRevenue.getD 0 - r.costofGoodsAndServicesSold.getD 0)
      / r.totalRevenue.getD 0 * 100
  else 0

/-- Gross margin as amended: the formula whenever revenue and cogs are
both truthy, else 0. -/
def amendedGrossMargin (r : FundRecord) : ℚ :=
  if truthyQ r.totalRevenue = true ∧ truthyQ r.costofGoodsAndServicesSold = true then
    (r.totalRevenue.getD 0 - r.costofGoodsAndServicesSold.getD 0)
      / r.totalRevenue.getD 0 * 100
  else 0

/-- Net margin as the claim states it: the formula whenever revenue and
net income are both present and revenue is truthy, else 0. -/
def claimNetMargin (r : FundRecord) : ℚ :=
  if truthyQ r.totalRevenue = true ∧ r.netIncome.isSome = true then
    r.netIncome.getD 0 / r.totalRevenue.getD 0 * 100
  else 0

/-- A quarterly fundamentals record with a valid end date in month
`mIdx` (0-based) of `yr`, carrying a net income and a dividend payout. -/
def qRec (yr mIdx : Int) (ni dp : ℚ) : FundRecord :=
  { endDate := .str (some ⟨yr, mIdx, 28⟩), netIncome := some ni, dividendPayout := some dp }

/-- The five quarters of the payout-ratio scenario: net income
`[10,10,10,10,10]`, dividendPayout `[1,1,1,1,2]`. -/
def c1Records : List FundRecord :=
  [qRec 2020 2 10 1, qRec 2020 5 10 1, qRec 2020 8 10 1, qRec 2020 11 10 1,
    qRec 2021 2 10 2]

/-- Two annual records falling in the same calendar year 2020. -/
def c2RecordA : FundRecord :=
  { endDate := .str (some ⟨2020, 0, 15⟩), totalRevenue := some 1 }

/-- Second same-year record (later in 2020). -/
def c2RecordB : FundRecord :=
  { endDate := .str (some ⟨2020, 11, 31⟩), totalRevenue := some 2 }

/-- Two annual records in distinct years, scrambled (2021 first). -/
def c2RecordC : FundRecord :=
  { endDate := .str (some ⟨2021, 11, 31⟩), totalRevenue := some 3 }

/-- An annual record whose `endDate` string the JS date parser rejects
(`new Date(...)` is an Invalid Date). -/
def c3BadRecord : FundRecord :=
  { endDate := .str none, totalRevenue := some 7 }

/-- A quarterly record with a missing (`undefined`) `endDate`. -/
def c3MissingRecord : FundRecord :=
  { endDate := .undef, totalRevenue := some 9 }

/-- A record with truthy revenue and a present-but-zero cogs field. -/
def c6Record : FundRecord :=
  { endDate := .str (some ⟨2020, 11, 31⟩), totalRevenue := some 100,
    costofGoodsAndServicesSold := some 0 }

/-- Four quarters of concrete per-metric data for the valuation witness. -/
def c10Data : List FinancialDataPoint :=
  [⟨.quarter (some 1) (some 2020), 2, none, none⟩,
    ⟨.quarter (some 2) (some 2020), 2, none, none⟩,
    ⟨.quarter (some 3) (some 2020), 2, none, none⟩,
    ⟨.quarter (some 4) (some 2020), 2, none, none⟩]

/-- Four quarters of share counts for the valuation witness. -/
def c10Shares : List FinancialDataPoint :=
  [⟨.quarter (some 1) (some 2020), 4, none, none⟩,
    ⟨.quarter (some 2) (some 2020), 4, none, none⟩,
    ⟨.quarter (some 3) (some 2020), 4, none, none⟩,
    ⟨.quarter (some 4) (some 2020), 4, none, none⟩]

/-! ## General lemmas about the sorting embedding -/

theorem insertLe_perm (le : α → α → Bool) (x : α) (l : List α) :
    List.Perm (insertLe le x l) (x :: l) := by
  induction l with
  | nil => simp [insertLe]
  | cons y ys ih =>
    simp only [insertLe]
    split
    · exact List.Perm.refl _
    · exact (ih.cons y).trans (List.Perm.swap x y ys)

theorem sortBy_perm (le : α → α → Bool) (l : List α) : List.Perm (sortBy le l) l := by
  induction l with
  | nil => simp [sortBy]
  | cons x xs ih => exact (insertLe_perm le x (sortBy le xs)).trans (ih.cons x)

theorem sortBy_length (le : α → α → Bool) (l : List α) :
    (sortBy le l).length = l.length :=
  (sortBy_perm le l).length_eq

theorem pairwise_insertLe {le : α → α → Bool} {P : α → Prop}
    (htot : ∀ a b, P a → P b → le a b = true ∨ le b a = true)
    (htrans : ∀ a b c, P a → P b → P c → le a b = true → le b c = true → le a c = true)
    {x : α} {l : List α} (hx : P x) (hl : ∀ y ∈ l, P y)
    (h : l.Pairwise fun a b => le a b = true) :
    (insertLe le x l).Pairwise fun a b => le a b = true := by
  induction l with
  | nil => simp [insertLe]
  | cons y ys ih =>
    rw [List.pairwise_cons] at h
    obtain ⟨hyys, hys⟩ := h
    simp only [insertLe]
    by_cases hxy : le x y = true
    · rw [if_pos hxy, List.pairwise_cons]
      refine ⟨?_, List.pairwise_cons.mpr ⟨hyys, hys⟩⟩
      intro b hb
      rcases List.mem_cons.mp hb with rfl | hb2
      · exact hxy
      · exact htrans x y b hx (hl y (by simp)) (hl b (by simp [hb2])) hxy (hyys b hb2)
    · rw [if_neg hxy, List.pairwise_cons]
      have hyx : le y x = true := (htot x y hx (hl y (by simp))).resolve_left hxy
      refine ⟨?_, ih (fun z hz => hl z (by simp [hz])) hys⟩
      intro b hb
      have hb2 : b ∈ x :: ys := (insertLe_perm le x ys).subset hb
      rcases List.mem_cons.mp hb2 with rfl | hb3
      · exact hyx
      · exact hyys b hb3

theorem sortBy_pairwise {le : α → α → Bool} {P : α → Prop}
    (htot : ∀ a b, P a → P b → le a b = true ∨ le b a = true)
    (htrans : ∀ a b c, P a → P b → P c → le a b = true → le b c = true → le a c = true)
    (l : List α) (hl : ∀ y ∈ l, P y) :
    (sortBy le l).Pairwise fun a b => le a b = true := by
  induction l with
  | nil => simp [sortBy]
  | cons x xs ih =>
    simp only [sortBy]
    exact pairwise_insertLe htot htrans (hl x (by simp))
      (fun z hz => hl z (List.mem_cons_of_mem x ((sortBy_perm le xs).subset hz)))
      (ih fun z hz => hl z (by simp [hz]))

theorem lexLe_total (a b : Ymd) : lexLe a b = true ∨ lexLe b a = true := by
  simp only [lexLe]
  split_ifs <;> simp_all <;> omega

theorem lexLe_trans {a b c : Ymd} (h1 : lexLe a b = true) (h2 : lexLe b c = true) :
    lexLe a c = true := by
  simp only [lexLe] at h1 h2 ⊢
  split_ifs at h1 h2 ⊢ <;> simp_all <;> omega

theorem lexLe_year {a b : Ymd} (h : lexLe a b = true) : a.y ≤ b.y := by
  simp only [lexLe] at h
  split_ifs at h <;> omega

theorem keepParsed_length (l : List FundRecord) : ∀ i,
    (keepParsed i l).length = (l.filter fun r => (quarterlyDate r.endDate).isSome).length := by
  induction l with
  | nil => intro i; simp [keepParsed]
  | cons r rs ih =>
    intro i
    rcases h : quarterlyDate r.endDate with _ | dt <;>
      simp [keepParsed, h, List.filter, ih]

/-! ## C1: the quarterly rolling payout ratio -/

/-- C1 (counterexample): with net income `[10,10,10,10,10]` and
dividendPayout `[1,1,1,1,2]`, the produced quarterly payout-ratio value
at index 3 — the first full 4-quarter window — is NOT the claimed 40. -/
theorem c1_rolling_payout_counterexample :
    ((processFinancialData none (some c1Records) none).payoutRatio.quarterly.map
      (·.value)).get? 3 ≠ some 40 := by
  norm_num [processFinancialData, processQuarterlyData, processAnnualData, processDividends,
    quarterlyPayoutUpdate, annualPayoutUpdate, mapIdxFrom, windowVal, keepParsed, sortBy,
    insertLe, recLe, keyLe, lexLe, annualJsDate, quarterlyDate, quarterLabelOf, c1Records, qRec,
    numOr0, truthyQ]

/-- C1 (amended): the same scenario yields ratio
`sum(div[0..3]) / sum(income[0..3]) * 100 = 4/40*100 = 10` percent at
index 3, ratio 0 at indices 0–2 (and 12.5 at index 4). -/
theorem c1_rolling_payout :
    (processFinancialData none (some c1Records) none).payoutRatio.quarterly.map
      (·.value) = [0, 0, 0, 10, 25/2] := by
  norm_num [processFinancialData, processQuarterlyData, processAnnualData, processDividends,
    quarterlyPayoutUpdate, annualPayoutUpdate, mapIdxFrom, windowVal, keepParsed, sortBy,
    insertLe, recLe, keyLe, lexLe, annualJsDate, quarterlyDate, quarterLabelOf, c1Records, qRec,
    numOr0, truthyQ]

/-! ## C9: the dividend "empty" sentinel -/

/-- C9: a dividend list consisting of exactly one record whose `Date` is
the literal string `"empty"` produces the empty dividend series (the
total function raises nothing). -/
theorem c9_dividend_empty_sentinel :
    processDividends (some [⟨DivDate.emptyLit, none⟩]) = [] := by decide

/-! ## C3: dropping of records with unparsable dates -/

/-- C3 (counterexample): an annual record whose `endDate` does not parse
is NOT excluded: it is emitted with an invalid (`NaN`) year label and
its revenue value. -/
theorem c3_unparsable_counterexample :
    (processAnnualData (some [c3BadRecord])).revenue
        = [⟨Label.annual none, 7, none, none⟩]
      ∧ (processAnnualData (some [c3BadRecord])).revenue ≠ [] := by decide

/-- C3 (amended): the annual path never drops a record — its output has
one point per input record, whatever the dates — while the quarterly
path drops exactly the records whose tolerant parse yields `null`
(a missing/null `endDate` or one of non-string, non-object type). -/
theorem c3_unparsable_dropped :
    (∀ l : List FundRecord, ∀ ql : Option (List FundRecord),
        ((processAnnualData (some l) ql).revenue).length = l.length)
      ∧ (∀ l : List FundRecord,
        ((processQuarterlyData (some l)).revenue).length
          = (l.filter fun r => (quarterlyDate r.endDate).isSome).length) := by
  constructor
  · intro l ql
    simp [processAnnualData, sortBy_length]
  · intro l
    simp only [processQuarterlyData, List.length_map, keepParsed_length]
    exact ((sortBy_perm recLe l).filter _).length_eq

/-! ## C2: strict sortedness of normalized series -/

theorem findIdxFrom_eq_none {p : α → Bool} {l : List α} (h : ∀ x ∈ l, p x = false) :
    ∀ i, findIdxFrom p i l = none := by
  induction l with
  | nil => intro i; rfl
  | cons x xs ih =>
    intro i
    simp only [findIdxFrom, h x (by simp), Bool.false_eq_true, if_false]
    exact ih (fun z hz => h z (by simp [hz])) (i + 1)

/-- C2 (counterexample): two records inside the same calendar year 2020
normalize to two consecutive points with EQUAL period labels, so the
produced series is not strictly increasing by period. -/
theorem c2_strictly_sorted_counterexample :
    ¬ (((processAnnualData (some [c2RecordA, c2RecordB])).revenue.map (·.year)).Pairwise
        fun a b => labelLtB a b = true) := by decide

/-- C2 (amended): whenever every record's `endDate` parses to a valid
date and no two records share a calendar year, the normalized annual
series is strictly increasing by period (pairwise, hence also for every
pair of consecutive points), even for scrambled input. -/
theorem c2_strictly_sorted (l : List FundRecord)
    (hvalid : ∀ r ∈ l, (annualJsDate r.endDate).isSome = true)
    (hdistinct : l.Pairwise fun a b =>
      (annualJsDate a.endDate).map Ymd.y ≠ (annualJsDate b.endDate).map Ymd.y) :
    ((processAnnualData (some l)).revenue.map (·.year)).Pairwise
      fun a b => labelLtB a b = true := by
  have hperm := sortBy_perm recLe l
  have hsorted : (sortBy recLe l).Pairwise fun a b => recLe a b = true := by
    refine sortBy_pairwise (P := fun r => (annualJsDate r.endDate).isSome = true) ?_ ?_ l hvalid
    · intro a b ha hb
      obtain ⟨da, hda⟩ := Option.isSome_iff_exists.mp ha
      obtain ⟨db, hdb⟩ := Option.isSome_iff_exists.mp hb
      simp only [recLe, hda, hdb, keyLe]
      exact lexLe_total da db
    · intro a b c ha hb hc h1 h2
      obtain ⟨da, hda⟩ := Option.isSome_iff_exists.mp ha
      obtain ⟨db, hdb⟩ := Option.isSome_iff_exists.mp hb
      obtain ⟨dc, hdc⟩ := Option.isSome_iff_exists.mp hc
      simp only [recLe, hda, hdb, hdc, keyLe] at h1 h2 ⊢
      exact lexLe_trans h1 h2
  have hdistinct2 : (sortBy recLe l).Pairwise fun a b =>
      (annualJsDate a.endDate).map Ymd.y ≠ (annualJsDate b.endDate).map Ymd.y := by
    refine (List.Perm.pairwise_iff ?_ hperm).mpr hdistinct
    intro a b h hba
    exact h hba.symm
  have hcomb := hsorted.and hdistinct2
  simp only [processAnnualData, List.map_map]
  rw [List.pairwise_map]
  refine List.Pairwise.imp_of_mem ?_ hcomb
  intro a b ha hb hab
  obtain ⟨hle, hne⟩ := hab
  obtain ⟨da, hda⟩ := Option.isSome_iff_exists.mp (hvalid a (hperm.subset ha))
  obtain ⟨db, hdb⟩ := Option.isSome_iff_exists.mp (hvalid b (hperm.subset hb))
  simp only [recLe, hda, hdb, keyLe] at hle
  have hyy : da.y ≤ db.y := lexLe_year hle
  have hne2 : da.y ≠ db.y := by
    intro hcontra
    exact hne (by rw [hda, hdb]; simp [hcontra])
  simp only [Function.comp, annualLabelOf, hda, hdb, Option.map, labelLtB,
    decide_eq_true_eq]
  omega

/-- C2 (witness): two valid-dated records in distinct years (2021 given
first) normalize to a strictly increasing series. -/
theorem c2_strictly_sorted_witness :
    ((processAnnualData (some [c2RecordC, c2RecordA])).revenue.map (·.year)).Pairwise
      (fun a b => labelLtB a b = true) :=
  c2_strictly_sorted [c2RecordC, c2RecordA] (by decide) (by decide)

/-! ## C6: the margin formulas -/

/-- C6 (counterexample): a record with truthy revenue 100 and a
present-but-zero cogs field gets gross margin 0 from the code, while the
claim's formula (cogs merely present, revenue truthy) gives 100. -/
theorem c6_margins_counterexample :
    ((processAnnualData (some [c6Record])).grossMargin.map (·.value) = [0])
      ∧ claimGrossMargin c6Record = 100
      ∧ (0 : ℚ) ≠ 100 := by
  refine ⟨by decide, ?_, by norm_num⟩
  norm_num [claimGrossMargin, c6Record, truthyQ]

/-- C6 (amended): for every record, in both the annual and the quarterly
normalizer, gross margin is `(revenue - cogs)/revenue*100` when revenue
and cogs are both TRUTHY (present and non-zero) and 0 otherwise; net
margin is `netIncome/revenue*100` when revenue is truthy and net income
is present, else 0 (a present-but-zero net income makes both readings
agree at 0, so the claim's wording survives for net margin). -/
theorem c6_margins :
    ∀ l : List FundRecord,
      ((processAnnualData (some l)).grossMargin
          = (sortBy recLe l).map fun r =>
            ⟨annualLabelOf (annualJsDate r.endDate), amendedGrossMargin r, none, none⟩)
        ∧ ((processAnnualData (some l)).netMargin
          = (sortBy recLe l).map fun r =>
            ⟨annualLabelOf (annualJsDate r.endDate), claimNetMargin r, none, none⟩)
        ∧ ((processQuarterlyData (some l)).grossMargin
          = (keepParsed 0 (sortBy recLe l)).map fun p =>
            ⟨quarterLabelOf p.2.2, amendedGrossMargin p.2.1, none, none⟩)
        ∧ ((processQuarterlyData (some l)).netMargin
          = (keepParsed 0 (sortBy recLe l)).map fun p =>
            ⟨quarterLabelOf p.2.2, claimNetMargin p.2.1, none, none⟩) := by
  intro l
  have hg : ∀ r : FundRecord, grossMarginOf r = amendedGrossMargin r := by
    intro r
    simp only [grossMarginOf, amendedGrossMargin, Bool.and_eq_true]
  have hn : ∀ r : FundRecord, netMarginOf r = claimNetMargin r := by
    intro r
    simp only [netMarginOf, claimNetMargin, Bool.and_eq_true]
    rcases hinc : r.netIncome with _ | v
    · simp [truthyQ, hinc]
    · by_cases hv : v = 0
      · subst hv
        simp [truthyQ, hinc]
      · simp [truthyQ, hinc, hv]
  refine ⟨?_, ?_, ?_, ?_⟩
  · simp only [processAnnualData, hg]
  · simp only [processAnnualData, hn]
  · simp only [processQuarterlyData, hg]
  · simp only [processQuarterlyData, hn]

/-! ## C7: no ratios from partial trailing windows -/

/-- C7: at any aligned point where fewer than 4 trailing quarters were
available (`quartersIncluded !== 4`), all four ratios are null. -/
theorem c7_partial_window_null (revenueData earningsData fcfData ocfData sharesData :
    List FinancialDataPoint) (idx : Int) (price : ℚ)
    (h : quartersIncludedAt idx ≠ 4) :
    (valuationMetricAt revenueData earningsData fcfData ocfData sharesData idx price).pe = none
      ∧ (valuationMetricAt revenueData earningsData fcfData ocfData sharesData idx price).ps = none
      ∧ (valuationMetricAt revenueData earningsData fcfData ocfData sharesData idx price).pfcf = none
      ∧ (valuationMetricAt revenueData earningsData fcfData ocfData sharesData idx price).pocf = none := by
  simp [valuationMetricAt, h]

/-- C7 (witness): a point aligned to quarter index 1 (so only 2 trailing
quarters exist) yields four null ratios. -/
theorem c7_partial_window_null_witness :
    (valuationMetricAt [] [] [] [] [] 1 5).pe = none
      ∧ (valuationMetricAt [] [] [] [] [] 1 5).ps = none
      ∧ (valuationMetricAt [] [] [] [] [] 1 5).pfcf = none
      ∧ (valuationMetricAt [] [] [] [] [] 1 5).pocf = none :=
  c7_partial_window_null [] [] [] [] [] 1 5 (by decide)

/-! ## C10: ratios only from strictly positive trailing sums -/

/-- C10: even with a full 4-quarter window, each ratio is emitted iff its
own trailing sum is strictly positive; with a non-negative price and
share count every emitted ratio is non-negative, and no division by a
zero or negative trailing sum ever happens (the ratio is null instead). -/
theorem c10_ratio_positivity (revenueData earningsData fcfData ocfData sharesData :
    List FinancialDataPoint) (idx : Int) (price : ℚ)
    (h4 : quartersIncludedAt idx = 4) :
    ((valuationMetricAt revenueData earningsData fcfData ocfData sharesData idx price).pe.isSome
        ↔ 0 < trailingSum earningsData idx)
      ∧ ((valuationMetricAt revenueData earningsData fcfData ocfData sharesData idx price).ps.isSome
        ↔ 0 < trailingSum revenueData idx)
      ∧ ((valuationMetricAt revenueData earningsData fcfData ocfData sharesData idx price).pfcf.isSome
        ↔ 0 < trailingSum fcfData idx)
      ∧ ((valuationMetricAt revenueData earningsData fcfData ocfData sharesData idx price).pocf.isSome
        ↔ 0 < trailingSumOCF ocfData idx)
      ∧ (0 ≤ price → 0 ≤ sharesAt sharesData idx →
          ∀ v : ℚ, (valuationMetricAt revenueData earningsData fcfData ocfData sharesData idx price).pe = some v
              ∨ (valuationMetricAt revenueData earningsData fcfData ocfData sharesData idx price).ps = some v
              ∨ (valuationMetricAt revenueData earningsData fcfData ocfData sharesData idx price).pfcf = some v
              ∨ (valuationMetricAt revenueData earningsData fcfData ocfData sharesData idx price).pocf = some v
            → 0 ≤ v) := by
  simp only [valuationMetricAt, h4, if_pos]
  refine ⟨?_, ?_, ?_, ?_, ?_⟩
  · split_ifs <;> simp_all
  · split_ifs <;> simp_all
  · split_ifs <;> simp_all
  · split_ifs <;> simp_all
  · intro hp hs v hv
    have key : ∀ t : ℚ,
        (if 0 < t then some (price / (t / sharesAt sharesData idx)) else none) = some v
          → 0 ≤ v := by
      intro t ht
      by_cases hpos : 0 < t
      · rw [if_pos hpos] at ht
        obtain rfl := Option.some.inj ht
        exact div_nonneg hp (div_nonneg (le_of_lt hpos) hs)
      · rw [if_neg hpos] at ht
        exact absurd ht (by simp)
    rcases hv with hv | hv | hv | hv
    · exact key _ hv
    · exact key _ hv
    · exact key _ hv
    · exact key _ hv

/-- C10 (witness): four quarters of value 2 and share count 4 at index 3
with price 8 instantiate the positivity statement. -/
theorem c10_ratio_positivity_witness :
    ((valuationMetricAt c10Data c10Data c10Data c10Data c10Shares 3 8).pe.isSome
        ↔ 0 < trailingSum c10Data 3)
      ∧ ((valuationMetricAt c10Data c10Data c10Data c10Data c10Shares 3 8).ps.isSome
        ↔ 0 < trailingSum c10Data 3)
      ∧ ((valuationMetricAt c10Data c10Data c10Data c10Data c10Shares 3 8).pfcf.isSome
        ↔ 0 < trailingSum c10Data 3)
      ∧ ((valuationMetricAt c10Data c10Data c10Data c10Data c10Shares 3 8).pocf.isSome
        ↔ 0 < trailingSumOCF c10Data 3)
      ∧ (0 ≤ (8 : ℚ) → 0 ≤ sharesAt c10Shares 3 →
          ∀ v : ℚ, (valuationMetricAt c10Data c10Data c10Data c10Data c10Shares 3 8).pe = some v
              ∨ (valuationMetricAt c10Data c10Data c10Data c10Data c10Shares 3 8).ps = some v
              ∨ (valuationMetricAt c10Data c10Data c10Data c10Data c10Shares 3 8).pfcf = some v
              ∨ (valuationMetricAt c10Data c10Data c10Data c10Data c10Shares 3 8).pocf = some v
            → 0 ≤ v) :=
  c10_ratio_positivity c10Data c10Data c10Data c10Data c10Shares 3 8 (by decide)

/-! ## C4: price points before the earliest quarter -/

/-- C4: a monthly price point dated strictly before every quarter in a
non-empty quarterly series (in particular before the earliest one) is
mapped by `findClosestQuarter` to index 0 — the earliest quarter —
never to a negative or invalid index; since the caller keeps exactly
the points with index ≥ 0, the point is not discarded. -/
theorem c4_price_before_earliest_floor (quarterData : List Label) (priceDate : Ymd)
    (hne : quarterData ≠ [])
    (hm0 : 0 ≤ priceDate.m) (hm1 : priceDate.m ≤ 11)
    (hall : ∀ lab ∈ quarterData, ∃ q yv, lab = Label.quarter (some q) (some yv)
      ∧ 1 ≤ q ∧ q ≤ 4 ∧ 100 ≤ yv
      ∧ (priceDate.y < yv ∨ (priceDate.y = yv ∧ priceDate.m / 3 + 1 < q))) :
    findClosestQuarter quarterData priceDate = 0
      ∧ 0 ≤ findClosestQuarter quarterData priceDate := by
  rcases hqd : quarterData with _ | ⟨q0, rest⟩
  · exact absurd hqd hne
  subst hqd
  suffices h : findClosestQuarter (q0 :: rest) priceDate = 0 by
    rw [h]; exact ⟨rfl, le_refl 0⟩
  have hfind : findIdxFrom (fun q => decide (q =
      Label.quarter (some (priceDate.m / 3 + 1)) (some priceDate.y))) 0 (q0 :: rest)
      = none := by
    apply findIdxFrom_eq_none
    intro lab hlab
    obtain ⟨q, yv, hl, hq1, hq4, hy100, hord⟩ := hall lab hlab
    subst hl
    simp only [decide_eq_false_iff_not]
    intro he
    rw [Label.quarter.injEq, Option.some.injEq, Option.some.injEq] at he
    obtain ⟨hq, hy⟩ := he
    rcases hord with hlt | ⟨heq, hql⟩ <;> omega
  obtain ⟨q, yv, hl, hq1, hq4, hy100, hord⟩ := hall q0 (by simp)
  have hqdate : quarterToDate q0 = some ⟨yv, (q - 1) * 3 + 2, 15⟩ := by
    subst hl
    simp only [quarterToDate, mkYmd]
    have hshift : ¬ (0 ≤ yv ∧ yv ≤ 99) := by omega
    rw [if_neg hshift]
    have hfd2 : ((q - 1) * 3 + 2) / 12 = 0 := by omega
    have hem : ((q - 1) * 3 + 2) % 12 = (q - 1) * 3 + 2 := by omega
    rw [hfd2, hem]
    norm_num
  have hlt : ltValidDate priceDate (quarterToDate q0) = true := by
    rw [hqdate]
    simp only [ltValidDate, ymdLt]
    rcases hord with hlt2 | ⟨heq, hql⟩
    · rw [if_pos hlt2]
    · have hylt : ¬ (priceDate.y < yv) := by omega
      have hmlt : priceDate.m < (q - 1) * 3 + 2 := by omega
      rw [if_neg hylt, if_neg (by omega : ¬ yv < priceDate.y), if_pos hmlt]
  simp only [findClosestQuarter]
  rw [hfind, hlt]
  simp

/-- C4 (witness): a mid-2019 price against a series whose earliest (and
only) quarter is Q1 2020 maps to index 0. -/
theorem c4_price_before_earliest_floor_witness :
    findClosestQuarter [Label.quarter (some 1) (some 2020)] ⟨2019, 5, 15⟩ = 0
      ∧ 0 ≤ findClosestQuarter [Label.quarter (some 1) (some 2020)] ⟨2019, 5, 15⟩ := by
  apply c4_price_before_earliest_floor
  · simp
  · norm_num
  · norm_num
  · intro lab hlab
    simp only [List.mem_singleton] at hlab
    subst hlab
    exact ⟨1, 2020, rfl, by norm_num, by norm_num, by norm_num, Or.inl (by norm_num)⟩

/-! ## C5: the CAGR sign-transition policy -/

theorem ite_chain_comm (s e A B C : ℝ) :
    (if s < 0 ∧ 0 < e then A else if s = 0 then (0:ℝ) else if s < 0 ∧ e < 0 then B else C)
      = (if s < 0 ∧ 0 < e then A else if s < 0 ∧ e < 0 then B else if s = 0 then 0 else C) := by
  by_cases h1 : s < 0 ∧ 0 < e
  · simp [h1]
  · by_cases h2 : s = 0
    · have h3 : ¬ (s < 0 ∧ e < 0) := by
        rintro ⟨hs, _⟩
        rw [h2] at hs
        exact lt_irrefl 0 hs
      simp [h1, h2, h3]
    · simp [h1, h2]

/-- C5: with enough history (`years + 1` points annually,
`years * 4 + 4` points quarterly), `calculateCAGR` equals the
specification's sign-transition policy applied to the annual start/end
values, respectively to the TTM start/end windows; and the two
spec examples compute to 1.5 and 0.6. -/
theorem c5_cagr_sign_policy (data : List ℝ) (years : ℕ) (hy : 1 ≤ years) :
    (years + 1 ≤ data.length →
      calculateCAGR data years false
        = cagrSignPolicy (annualStartValue data years) (annualEndValue data) years)
      ∧ (years * 4 + 4 ≤ data.length →
      calculateCAGR data years true
        = cagrSignPolicy (startTTMOf data years) (endTTMOf data) years)
      ∧ calculateCAGR [(-100 : ℝ), 50] 1 false = 3/2
      ∧ calculateCAGR [(-100 : ℝ), -40] 1 false = 3/5 := by
  refine ⟨?_, ?_, ?_, ?_⟩
  · intro hlen
    have h1 : ¬ (data.length < years + 1) := by omega
    simp only [calculateCAGR, annualEndValue, annualStartValue]
    rw [if_neg h1]
    simp only [Bool.false_eq_true, if_false]
    rfl
  · intro hlen
    have h1 : ¬ (data.length < years + 1) := by omega
    by_cases hy1 : years = 1
    · subst hy1
      simp only [calculateCAGR]
      rw [if_neg h1]
      simp only [if_true, if_pos rfl]
      rw [if_neg (by omega : ¬ data.length < 4 + 4)]
      have harg : (data.length : Int) - (((1 : ℕ) : Int) * 4 + 4)
          = (data.length : Int) - 8 := by
        norm_num
      rw [ite_chain_comm]
      simp only [cagrSignPolicy, startTTMOf, endTTMOf, harg]
    · simp only [calculateCAGR]
      rw [if_neg h1]
      simp only [if_true, if_neg hy1]
      rw [if_neg (by omega : ¬ data.length < years * 4 + 4)]
      have harg : (data.length : Int) - ((years : Int) * 4 + 4)
          = (data.length : Int) - 4 - ((years * 4 : ℕ) : Int) := by
        push_cast
        ring
      rw [ite_chain_comm]
      simp only [cagrSignPolicy, startTTMOf, endTTMOf, harg]
  · have hval1 : valAt [(-100 : ℝ), 50] 1 = 50 := by norm_num [valAt]
    have hval0 : valAt [(-100 : ℝ), 50] 0 = -100 := by norm_num [valAt]
    simp only [calculateCAGR, List.length_cons, List.length_nil]
    norm_num [hval1, hval0]
  · have hval1 : valAt [(-100 : ℝ), -40] 1 = -40 := by norm_num [valAt]
    have hval0 : valAt [(-100 : ℝ), -40] 0 = -100 := by norm_num [valAt]
    simp only [calculateCAGR, List.length_cons, List.length_nil]
    norm_num [hval1, hval0]

/-- C5 (witness): the policy equation instantiated on the concrete
2-point annual series `[-100, 50]` over 1 year. -/
theorem c5_cagr_sign_policy_witness :
    calculateCAGR [(-100 : ℝ), 50] 1 false
      = cagrSignPolicy (annualStartValue [(-100 : ℝ), 50] 1)
          (annualEndValue [(-100 : ℝ), 50]) 1 :=
  (c5_cagr_sign_policy [(-100 : ℝ), 50] 1 (le_refl 1)).1 (by norm_num)

/-! ## C8: the projection engine -/

theorem foldl_mul_const (c a : ℝ) (n : ℕ) :
    (List.range n).foldl (fun v _ => v * c) a = a * c ^ n := by
  induction n with
  | zero => simp
  | succ k ih =>
    rw [List.range_succ, List.foldl_append]
    simp [ih, pow_succ, mul_assoc]

/-- C8 (counterexample): the claim's precondition is only "per-share base
present, currentPrice > 0", but at a PRESENT-but-zero per-share base the
guard `ttmEPS === null || !ttmEPS || currentPrice <= 0` fires and the
code produces no projection at all — the claim as stated is false
there. -/
theorem c8_projection_counterexample :
    projectionRun (some (0 : ℝ)) 10 5 10 8 0 = none := by
  norm_num [projectionRun]

/-- C8 (amended): for a valid projection input (per-share base present
AND truthy, i.e. non-zero, and `currentPrice > 0` — the same
present-vs-truthy gap as in the margins), the result exists and
consists of: a CAGR of
`(finalPrice/currentPrice)^(1/5) - 1` in percent, where
`finalPrice = perShare·(1+g/100)^5·multiple` is the 5-fold compounded
per-share value times the exit multiple; an entry price of
`finalPrice/(1+desired/100)^5`; and a 6-point path in which the price at
year `i` is `currentPrice·(1+cagr/100)^i` while the per-share metric at
year `i` is `perShare·(1+g/100)^i` — a geometric price path which, when
the final price is non-negative, ends exactly at `finalPrice`. -/
theorem c8_projection (ttmPerShare : Option ℝ)
    (currentPrice growthRate multiple desiredReturn : ℝ) (currentYear : Int)
    (hp : ttmPerShare.getD 0 ≠ 0) (hc : 0 < currentPrice) :
    ∃ pts cagr entry,
      projectionRun ttmPerShare currentPrice growthRate multiple desiredReturn currentYear
        = some (pts, cagr, entry)
      ∧ cagr = (((ttmPerShare.getD 0 * (1 + growthRate / 100) ^ (5 : ℕ) * multiple)
          / currentPrice) ^ ((1 : ℝ) / (5 : ℝ)) - 1) * 100
      ∧ entry = (ttmPerShare.getD 0 * (1 + growthRate / 100) ^ (5 : ℕ) * multiple)
          / (1 + desiredReturn / 100) ^ (5 : ℕ)
      ∧ pts = [⟨currentYear, currentPrice, ttmPerShare.getD 0⟩,
          ⟨currentYear + 1, currentPrice * (1 + cagr / 100) ^ (1 : ℕ),
            ttmPerShare.getD 0 * (1 + growthRate / 100) ^ (1 : ℕ)⟩,
          ⟨currentYear + 2, currentPrice * (1 + cagr / 100) ^ (2 : ℕ),
            ttmPerShare.getD 0 * (1 + growthRate / 100) ^ (2 : ℕ)⟩,
          ⟨currentYear + 3, currentPrice * (1 + cagr / 100) ^ (3 : ℕ),
            ttmPerShare.getD 0 * (1 + growthRate / 100) ^ (3 : ℕ)⟩,
          ⟨currentYear + 4, currentPrice * (1 + cagr / 100) ^ (4 : ℕ),
            ttmPerShare.getD 0 * (1 + growthRate / 100) ^ (4 : ℕ)⟩,
          ⟨currentYear + 5, currentPrice * (1 + cagr / 100) ^ (5 : ℕ),
            ttmPerShare.getD 0 * (1 + growthRate / 100) ^ (5 : ℕ)⟩]
      ∧ (0 ≤ ttmPerShare.getD 0 * (1 + growthRate / 100) ^ (5 : ℕ) * multiple →
          currentPrice * (1 + cagr / 100) ^ (5 : ℕ)
            = ttmPerShare.getD 0 * (1 + growthRate / 100) ^ (5 : ℕ) * multiple) := by
  have hguard : ¬ (ttmPerShare = none ∨ ttmPerShare.getD 0 = 0 ∨ currentPrice ≤ 0) := by
    push_neg
    refine ⟨?_, hp, hc⟩
    intro h
    rw [h] at hp
    simp at hp
  simp only [projectionRun, if_neg hguard]
  refine ⟨_, _, _, rfl, ?_, ?_, ?_, ?_⟩
  · simp only [projectionCompute, foldl_mul_const]
    norm_num
  · simp only [projectionCompute, foldl_mul_const]
  · have hr5 : List.range 5 = [0, 1, 2, 3, 4] := rfl
    simp only [projectionCompute, hr5, List.map_cons, List.map_nil, List.cons.injEq,
      List.nil_eq, and_true]
    norm_num
    tauto
  · intro hfp
    have hR : (0 : ℝ) ≤ (ttmPerShare.getD 0 * (1 + growthRate / 100) ^ (5 : ℕ) * multiple)
        / currentPrice := div_nonneg hfp (le_of_lt hc)
    simp only [projectionCompute, foldl_mul_const]
    have hbase : 1 + ((ttmPerShare.getD 0 * (1 + growthRate / 100) ^ (5 : ℕ) * multiple
          / currentPrice) ^ ((1 : ℝ) / ((5 : ℕ) : ℝ)) - 1) * 100 / 100
        = (ttmPerShare.getD 0 * (1 + growthRate / 100) ^ (5 : ℕ) * multiple
          / currentPrice) ^ ((1 : ℝ) / ((5 : ℕ) : ℝ)) := by
      ring
    rw [hbase]
    rw [← Real.rpow_natCast ((ttmPerShare.getD 0 * (1 + growthRate / 100) ^ (5 : ℕ) * multiple
      / currentPrice) ^ ((1 : ℝ) / ((5 : ℕ) : ℝ))) 5, ← Real.rpow_mul hR]
    norm_num
    field_simp
    ring

/-- C8 (witness): a concrete valid input (per-share 1, price 10) yields
a projection result. -/
theorem c8_projection_witness :
    ∃ pts cagr entry,
      projectionRun (some (1 : ℝ)) 10 0 10 0 0 = some (pts, cagr, entry) := by
  obtain ⟨pts, cagr, entry, h, _⟩ :=
    c8_projection (some (1 : ℝ)) 10 0 10 0 0 (by norm_num) (by norm_num)
  exact ⟨pts, cagr, entry, h⟩

end Stockdoc
